import Mathlib

/-!
Shallow embedding of the remotebuilder control plane and proofs about it.

The definitions below are transcribed from the Python sources:
  * `src/core/builder/manager.py`   (`TaskStatus`, `BuildManager._run_task`,
    `BuildManager.cancel_task`, `BuildManager.create_task`,
    `BuildManager.cleanup_task`, `BuildManager._upload_workspace`)
  * `src/core/scheduler/distributed.py` (`DistributedScheduler.submit_task`,
    the `PriorityQueue` ordering)
  * `src/core/server/manager.py`  (`LoadBalancer.update_load`,
    `LoadBalancer.select_server`)
  * `src/core/server/retry.py`    (`retry`, `should_retry_on_connection`)
  * `src/core/server/pool.py`     (`ConnectionPool.release_server`)
  * `src/core/builder/pyinstaller.py` (`PyInstallerBuilder.build` and helpers)

Python floats are modelled as rationals (`ℚ`), Python exceptions as explicit
result values, remote command execution and file transfer as oracles supplied
to the functions.
-/

namespace RemoteBuilder

/-! ## Task states and the runner (`src/core/builder/manager.py`)

`TaskStatus` mirrors the string constants of the `TaskStatus` class.  The
runner `BuildManager._run_task` assigns `task.status` unconditionally at the
start of each phase and never re-reads it, so its behaviour is captured by the
list of status writes it performs, determined only by the phase outcomes. -/

inductive TaskStatus
  | pending
  | uploading
  | building
  | downloading
  | success
  | failed
  | cancelled
deriving DecidableEq

/-- Outcomes of the runner's phases: whether `_upload_workspace` returned
`True`, whether `self.builders.get(...)` found the configured builder, whether
`builder.build` returned `True`, and whether `_download_output` returned
`True`. -/
structure PhaseOutcome where
  uploadOk : Bool
  builderKnown : Bool
  buildOk : Bool
  downloadOk : Bool
deriving DecidableEq

/-- The sequence of `task.status` assignments performed by
`BuildManager._run_task` (manager.py lines 189–236).  The code sets
`UPLOADING`, runs the upload, on failure sets `FAILED`; it looks the builder
up (on a miss it sets `FAILED` before ever writing `BUILDING`), then sets
`BUILDING`, runs the build, on failure `FAILED`; then `DOWNLOADING`, on
failure `FAILED`; finally `SUCCESS`.  No write consults the current status. -/
def runnerWrites (o : PhaseOutcome) : List TaskStatus :=
  [.uploading] ++
    (if !o.uploadOk then [.failed]
     else if !o.builderKnown then [.failed]
     else [.building] ++
       (if !o.buildOk then [.failed]
        else [.downloading] ++
          (if !o.downloadOk then [.failed] else [.success])))

/-- An event acting on a job's status: either one of the runner's
unconditional status assignments, or a `BuildManager.cancel_task` call
(manager.py lines 352–363), which sets `CANCELLED` unless the current status
is `SUCCESS` or `FAILED`. -/
inductive JobEvent
  | write (s : TaskStatus)
  | cancel
deriving DecidableEq

/-- Effect of one event on the job's status.  A runner write replaces the
status outright; `cancel_task` checks
`task.status in [TaskStatus.SUCCESS, TaskStatus.FAILED]` and otherwise
assigns `CANCELLED`. -/
def applyEvent (s : TaskStatus) : JobEvent → TaskStatus
  | .write s2 => s2
  | .cancel => if s = .success ∨ s = .failed then s else .cancelled

/-- The return value of `cancel_task` for a job in status `s` (assuming the
task id is present in the table). -/
def cancelReturns (s : TaskStatus) : Bool :=
  !(s = .success || s = .failed)

/-- The sequence of statuses an observer of `task.status` can see along a
sequence of events, starting from the initial `PENDING` status. -/
def statusTrace (events : List JobEvent) : List TaskStatus :=
  events.scanl applyEvent .pending

/-- Interleaving with a single cancellation: the runner's writes for outcome
`o`, with a `cancel_task` call arriving after the first `k` writes. -/
def withCancelAfter (o : PhaseOutcome) (k : Nat) : List JobEvent :=
  ((runnerWrites o).take k).map .write ++ [.cancel] ++
    ((runnerWrites o).drop k).map .write

/-- C1: evaluation of the code at the failing input.  A job whose phases all
succeed is cancelled while its status is `UPLOADING` (the cancel lands after
the runner's `UPLOADING` write).  `cancel_task` does set the status to
`CANCELLED`, but `_run_task` never re-reads `task.status`, so the job is
subsequently observed in `BUILDING` and in `DOWNLOADING`, and its final state
is `SUCCESS`, not `CANCELLED` — contradicting the claim that a job cancelled
while `UPLOADING` is never observed in a later phase and ends `CANCELLED`. -/
theorem cancel_during_upload_reaches_building :
    statusTrace (withCancelAfter ⟨true, true, true, true⟩ 1) =
      [.pending, .uploading, .cancelled, .building, .downloading, .success] ∧
    TaskStatus.building ∈ statusTrace (withCancelAfter ⟨true, true, true, true⟩ 1) ∧
    (statusTrace (withCancelAfter ⟨true, true, true, true⟩ 1)).getLast? =
      some .success := by
  decide

/-- C2: evaluation of the code at the failing input.  A job that is in the
terminal state `CANCELLED` (cancelled right after the `UPLOADING` write) is
moved out of that state by the runner's next phase transition: the
unconditional `task.status = TaskStatus.BUILDING` write in `_run_task`
overwrites `CANCELLED`, so terminal states are not absorbing. -/
theorem cancelled_state_not_absorbing :
    statusTrace [.write .uploading, .cancel, .write .building] =
      [.pending, .uploading, .cancelled, .building] ∧
    applyEvent .cancelled (.write .building) = .building ∧
    TaskStatus.building ≠ TaskStatus.cancelled := by
  decide

/-! ## The distributed scheduler's priority queue
(`src/core/scheduler/distributed.py`)

`DistributedScheduler.submit_task` pushes `(-priority.value, created_at,
task_id)` into a `queue.PriorityQueue`, a binary min-heap ordered by Python
tuple comparison; `_scheduler_loop` repeatedly pops the minimum.  Entries are
modelled by their three components, with `task_id` strings modelled as
distinct naturals (Python compares distinct ids with a fixed total order, and
the id only breaks full ties).  Draining the heap yields the entries in
ascending key order, which `dispatchOrder` realises with a sort by the same
key. -/

/-- A priority-queue entry: `priority.value` (`LOW = 0 … URGENT = 3`),
`created_at`, and the task id. -/
structure QTask where
  pri : Nat
  created : Nat
  id : Nat
deriving DecidableEq

/-- Python's `⟨ (-p₁, c₁, i₁) ≤ (-p₂, c₂, i₂) ⟩` tuple comparison used by the
heap in `submit_task` (distributed.py line 55). -/
def qKeyLe (a b : QTask) : Bool :=
  decide (-(a.pri : Int) < -(b.pri : Int) ∨
    (-(a.pri : Int) = -(b.pri : Int) ∧ (a.created < b.created ∨
      (a.created = b.created ∧ a.id ≤ b.id))))

theorem qKeyLe_trans (a b c : QTask) (h1 : qKeyLe a b) (h2 : qKeyLe b c) :
    qKeyLe a c := by
  simp only [qKeyLe, decide_eq_true_eq] at *
  omega

theorem qKeyLe_total (a b : QTask) : qKeyLe a b || qKeyLe b a := by
  simp only [qKeyLe, Bool.or_eq_true, decide_eq_true_eq]
  omega

/-- The order in which `_scheduler_loop` dequeues the entries currently in the
queue when no re-queueing happens (all dequeued tasks are eligible): the heap
hands the entries out in ascending `(-priority, created_at, task_id)` key
order. -/
def dispatchOrder (q : List QTask) : List QTask :=
  q.mergeSort qKeyLe

theorem dispatchOrder_sorted (q : List QTask) :
    (dispatchOrder q).Sorted (fun a b => qKeyLe a b = true) :=
  List.sorted_mergeSort qKeyLe_trans qKeyLe_total q

theorem dispatchOrder_perm (q : List QTask) : (dispatchOrder q).Perm q :=
  List.mergeSort_perm q qKeyLe

/-- C3: the priority queue dispatches by `(−priority, createdAt)`.  For two
entries of the submitted queue, if `a` has strictly higher priority than `b`,
or equal priority and a strictly earlier `created_at`, then `a` occupies a
strictly earlier position than `b` in the dispatch order. -/
theorem queue_dispatch_priority_order (q : List QTask) (a b : QTask)
    (i j : Nat)
    (ha : (dispatchOrder q)[i]? = some a) (hb : (dispatchOrder q)[j]? = some b)
    (hk : b.pri < a.pri ∨ (a.pri = b.pri ∧ a.created < b.created)) :
    i < j := by
  rw [List.getElem?_eq_some] at ha hb
  obtain ⟨hi, ha⟩ := ha
  obtain ⟨hj, hb⟩ := hb
  by_contra hij
  push_neg at hij
  rcases Nat.eq_or_lt_of_le hij with heq | hlt
  · subst heq
    have hab : a = b := by rw [← ha, ← hb]
    subst hab
    rcases hk with h | ⟨h1, h2⟩ <;> omega
  · have hrel := (dispatchOrder_sorted q).rel_get_of_lt
      (a := ⟨j, hj⟩) (b := ⟨i, hi⟩) hlt
    simp only [List.get_eq_getElem] at hrel
    rw [ha, hb] at hrel
    simp only [qKeyLe, decide_eq_true_eq] at hrel
    rcases hk with h | ⟨h1, h2⟩ <;> omega

/-- Witness for C3: an URGENT entry submitted after a LOW one, and both in the
queue; the URGENT entry is dispatched first. -/
theorem queue_dispatch_priority_order_witness : (0 : Nat) < 1 := by
  have hq : dispatchOrder [⟨3, 9, 2⟩, ⟨0, 5, 1⟩] = [⟨3, 9, 2⟩, ⟨0, 5, 1⟩] :=
    List.mergeSort_of_sorted (by decide)
  exact queue_dispatch_priority_order
    [⟨3, 9, 2⟩, ⟨0, 5, 1⟩] ⟨3, 9, 2⟩ ⟨0, 5, 1⟩ 0 1
    (by rw [hq]; rfl) (by rw [hq]; rfl) (by decide)

/-! ## The load balancer (`src/core/server/manager.py`, class `LoadBalancer`)

`server_loads` and `last_selected` are Python dicts read with `.get(x, 0)`;
they are modelled as total functions defaulting to `0`.  Timestamps and
percentages are rationals.  `random.choice` over the top slice is modelled by
an arbitrary choice index reduced modulo the slice length. -/

/-- Step 1 of `select_server` (manager.py lines 38–45): drop servers selected
within the last 5 seconds (`current_time - last_selected.get(server, 0) > 5`
keeps a server), and fall back to the full list if nothing remains. -/
def eligibleServers (lastSelected : String → ℚ) (t : ℚ)
    (available : List String) : List String :=
  if (available.filter fun s => decide (5 < t - lastSelected s)).isEmpty then
    available
  else
    available.filter fun s => decide (5 < t - lastSelected s)

/-- Step 2 of `select_server` (line 48): `candidates.sort(key=lambda x:
self.server_loads.get(x, 0))` — a stable ascending sort by load score. -/
def sortedByLoad (loads : String → ℚ) (l : List String) : List String :=
  l.mergeSort fun x y => decide (loads x ≤ loads y)

/-- The slice `candidates[:min(3, len(candidates))]` of the sorted candidate
list (line 51). -/
def topCandidates (loads lastSelected : String → ℚ) (t : ℚ)
    (available : List String) : List String :=
  let sorted := sortedByLoad loads (eligibleServers lastSelected t available)
  sorted.take (min 3 sorted.length)

/-- `LoadBalancer.select_server` (manager.py lines 32–53).  Returns the
selected name together with the updated `last_selected` map
(`self.last_selected[selected] = current_time`); `choice` stands for the
index drawn by `random.choice`. -/
def select_server (loads lastSelected : String → ℚ) (t : ℚ)
    (available : List String) (choice : Nat) :
    Option (String × (String → ℚ)) :=
  if available.isEmpty then none
  else
    match topCandidates loads lastSelected t available with
    | [] => none
    | x :: xs =>
      let selected := (x :: xs).get
        ⟨choice % (xs.length + 1), Nat.mod_lt _ (Nat.succ_pos _)⟩
      some (selected, fun s => if s = selected then t else lastSelected s)

theorem eligibleServers_ne_nil (lastSelected : String → ℚ) (t : ℚ)
    (available : List String) (h : available ≠ []) :
    eligibleServers lastSelected t available ≠ [] := by
  unfold eligibleServers
  split
  · exact h
  · next hc => exact fun hnil => hc (by simp [hnil])

theorem eligibleServers_subset (lastSelected : String → ℚ) (t : ℚ)
    (available : List String) :
    eligibleServers lastSelected t available ⊆ available := by
  unfold eligibleServers
  split
  · exact fun _ hx => hx
  · exact fun x hx => List.mem_of_mem_filter hx

theorem sortedByLoad_perm (loads : String → ℚ) (l : List String) :
    (sortedByLoad loads l).Perm l :=
  List.mergeSort_perm l _

theorem sortedByLoad_sorted (loads : String → ℚ) (l : List String) :
    (sortedByLoad loads l).Sorted (fun x y => loads x ≤ loads y) := by
  have h : ((l.mergeSort fun x y => decide (loads x ≤ loads y)).Sorted
      fun x y => decide (loads x ≤ loads y) = true) :=
    List.sorted_mergeSort
      (fun a b c h₁ h₂ => by
        simp only [decide_eq_true_eq] at *
        exact le_trans h₁ h₂)
      (fun a b => by
        simpa only [Bool.or_eq_true, decide_eq_true_eq] using
          le_total (loads a) (loads b))
      l
  exact h.imp (by simp)

theorem topCandidates_subset (loads lastSelected : String → ℚ) (t : ℚ)
    (available : List String) :
    topCandidates loads lastSelected t available ⊆ available := by
  intro x hx
  have hx2 : x ∈ sortedByLoad loads (eligibleServers lastSelected t available) :=
    List.take_subset _ _ hx
  exact eligibleServers_subset lastSelected t available
    ((sortedByLoad_perm _ _).mem_iff.mp hx2)

theorem topCandidates_ne_nil (loads lastSelected : String → ℚ) (t : ℚ)
    (available : List String) (h : available ≠ []) :
    topCandidates loads lastSelected t available ≠ [] := by
  unfold topCandidates
  have h1 : eligibleServers lastSelected t available ≠ [] :=
    eligibleServers_ne_nil lastSelected t available h
  have h2 : sortedByLoad loads (eligibleServers lastSelected t available) ≠ [] := by
    intro hnil
    have hp := sortedByLoad_perm loads (eligibleServers lastSelected t available)
    rw [hnil] at hp
    exact h1 hp.symm.eq_nil
  intro hnil
  rw [List.take_eq_nil_iff] at hnil
  have hpos : 0 < (sortedByLoad loads (eligibleServers lastSelected t available)).length :=
    List.length_pos.mpr h2
  rcases hnil with hnil | hnil <;>
    first
      | exact h2 hnil
      | omega

/-- C4: `select_server` on a non-empty candidate list always returns a
worker; the worker is drawn from the `min(3, n)` lowest-scored servers of the
anti-thundering-herd-filtered list (falling back to the full list when the
filter empties it, per `eligibleServers`), it belongs to the input list, its
selection timestamp is recorded, and every member of that top slice is
returned for some random draw. -/
theorem balancer_select_spec (loads lastSelected : String → ℚ) (t : ℚ)
    (available : List String) (choice : Nat) (h : available ≠ []) :
    ∃ selected,
      select_server loads lastSelected t available choice =
        some (selected, fun s => if s = selected then t else lastSelected s) ∧
      selected ∈ topCandidates loads lastSelected t available ∧
      selected ∈ available ∧
      (fun s => if s = selected then t else lastSelected s) selected = t ∧
      (∀ s, s ≠ selected →
        (fun s => if s = selected then t else lastSelected s) s = lastSelected s) ∧
      (sortedByLoad loads (eligibleServers lastSelected t available)).Sorted
        (fun x y => loads x ≤ loads y) ∧
      (∀ w ∈ topCandidates loads lastSelected t available,
        ∃ c2, (select_server loads lastSelected t available c2).map Prod.fst =
          some w) := by
  rcases htop : topCandidates loads lastSelected t available with _ | ⟨x, xs⟩
  · exact absurd htop (topCandidates_ne_nil loads lastSelected t available h)
  · have hsel : ∀ c : Nat,
        select_server loads lastSelected t available c =
          some ((x :: xs).get ⟨c % (xs.length + 1), Nat.mod_lt _ (Nat.succ_pos _)⟩,
            fun s => if s = (x :: xs).get
                ⟨c % (xs.length + 1), Nat.mod_lt _ (Nat.succ_pos _)⟩
              then t else lastSelected s) := by
      intro c
      unfold select_server
      rw [if_neg (by simpa [List.isEmpty_iff] using h)]
      rw [htop]
    set sel := (x :: xs).get
      ⟨choice % (xs.length + 1), Nat.mod_lt _ (Nat.succ_pos _)⟩ with hseldef
    refine ⟨sel, hsel choice, ?_, ?_, by simp, ?_, ?_, ?_⟩
    · exact List.get_mem _ _ _
    · exact topCandidates_subset loads lastSelected t available
        (by rw [htop]; exact List.get_mem _ _ _)
    · intro s hs
      simp [hs]
    · exact sortedByLoad_sorted loads _
    · intro w hw
      obtain ⟨⟨i, hi⟩, hget⟩ := List.mem_iff_get.mp hw
      refine ⟨i, ?_⟩
      rw [hsel i]
      have hmod : i % (xs.length + 1) = i := Nat.mod_eq_of_lt (by simpa using hi)
      simp only [List.get_eq_getElem] at hget
      simp [hmod, hget]

/-- Witness for C4 at a concrete input: one available server, never selected
before, current time 10. -/
theorem balancer_select_spec_witness :
    (select_server (fun _ => 0) (fun _ => 0) 10 ["a"] 0).isSome = true := by
  obtain ⟨sel, heq, -⟩ :=
    balancer_select_spec (fun _ => 0) (fun _ => 0) 10 ["a"] 0 (by decide)
  rw [heq]
  rfl

/-- A health sample, as consumed by `LoadBalancer.update_load`
(`ServerStatus` in `src/core/server/base.py`): usage percentages and the
error list. -/
structure ServerStatus where
  cpu_usage : ℚ
  memory_usage : ℚ
  disk_usage : ℚ
  errors : List String := []

/-- `LoadBalancer.update_load` (manager.py lines 22–30): stores
`cpu*0.4 + mem*0.3 + disk*0.3` as the server's load score. -/
def update_load (loads : String → ℚ) (server_name : String)
    (st : ServerStatus) : String → ℚ :=
  fun n =>
    if n = server_name then
      st.cpu_usage * 0.4 + st.memory_usage * 0.3 + st.disk_usage * 0.3
    else loads n

/-- C5: the recorded load score is exactly `0.4·cpu + 0.3·mem + 0.3·disk`, it
lies in `[0, 100]` whenever each usage percentage does, and no other server's
score is touched. -/
theorem load_score_formula_and_bounds (loads : String → ℚ) (name : String)
    (st : ServerStatus) :
    update_load loads name st name =
      st.cpu_usage * 0.4 + st.memory_usage * 0.3 + st.disk_usage * 0.3 ∧
    (0 ≤ st.cpu_usage → st.cpu_usage ≤ 100 →
      0 ≤ st.memory_usage → st.memory_usage ≤ 100 →
      0 ≤ st.disk_usage → st.disk_usage ≤ 100 →
      0 ≤ update_load loads name st name ∧ update_load loads name st name ≤ 100) ∧
    (∀ n, n ≠ name → update_load loads name st n = loads n) := by
  refine ⟨by simp [update_load], ?_, ?_⟩
  · intro h1 h2 h3 h4 h5 h6
    have hval : update_load loads name st name =
        st.cpu_usage * 0.4 + st.memory_usage * 0.3 + st.disk_usage * 0.3 := by
      simp [update_load]
    rw [hval]
    constructor <;> nlinarith
  · intro n hn
    simp [update_load, hn]

/-- Witness for C5: a sample with cpu=10, mem=20, disk=30 gives a score within
bounds (indeed `19`). -/
theorem load_score_formula_and_bounds_witness :
    0 ≤ update_load (fun _ => 0) "a" ⟨10, 20, 30, []⟩ "a" ∧
    update_load (fun _ => 0) "a" ⟨10, 20, 30, []⟩ "a" ≤ 100 :=
  (load_score_formula_and_bounds (fun _ => 0) "a" ⟨10, 20, 30, []⟩).2.1
    (by norm_num) (by norm_num) (by norm_num) (by norm_num) (by norm_num)
    (by norm_num)

/-! ## The retry decorator (`src/core/server/retry.py`)

The wrapped function is modelled as an oracle `f : Nat → Except E V` giving
the outcome of each attempt (the decorator's default `exceptions=(Exception,)`
catches every raised error).  The wrapper's loop is
`while attempt < max_attempts`, incrementing `attempt` on each failure; on a
failure it first re-raises when `should_retry` is given and rejects the
error, then re-raises when the failed attempt was the last one, and otherwise
sleeps `current_delay` and multiplies it by `backoff`.  The model returns the
final outcome (`none` models the decorator falling off the loop when
`max_attempts = 0`, where Python returns `None`), the number of calls made to
the wrapped function, and the list of sleep durations in order. -/

/-- `should_retry and not should_retry(e)` is the immediate re-raise test; a
missing predicate (`should_retry = None`) never re-raises early. -/
def srAllows {E : Type} (sr : Option (E → Bool)) (e : E) : Bool :=
  match sr with
  | none => true
  | some p => p e

/-- One execution of the `while attempt < max_attempts` loop body chain of
`retry` (retry.py lines 31–61), with `fuel = max_attempts - attempt` the
number of loop iterations still allowed, `i` the index of the next attempt
and `d` the current delay. -/
def retryAux {E V : Type} (f : Nat → Except E V) (sr : Option (E → Bool))
    (backoff : ℚ) : Nat → Nat → ℚ → Option (Except E V) × Nat × List ℚ
  | 0, _, _ => (none, 0, [])
  | fuel + 1, i, d =>
    match f i with
    | .ok v => (some (.ok v), 1, [])
    | .error e =>
      if srAllows sr e = false then (some (.error e), 1, [])
      else if fuel = 0 then (some (.error e), 1, [])
      else
        let rest := retryAux f sr backoff fuel (i + 1) (d * backoff)
        (rest.1, rest.2.1 + 1, d :: rest.2.2)

/-- The `retry(max_attempts, delay, backoff, exceptions=(Exception,),
should_retry)` decorator applied to `f`. -/
def retryCall {E V : Type} (f : Nat → Except E V) (sr : Option (E → Bool))
    (maxAttempts : Nat) (delay backoff : ℚ) :
    Option (Except E V) × Nat × List ℚ :=
  retryAux f sr backoff maxAttempts 0 delay

theorem retryAux_ok {E V : Type} {f : Nat → Except E V} {sr : Option (E → Bool)}
    {backoff : ℚ} {n i : Nat} {d : ℚ} {v : V} (h : f i = .ok v) :
    retryAux f sr backoff (n + 1) i d = (some (.ok v), 1, []) := by
  conv_lhs => rw [retryAux]
  rw [h]

theorem retryAux_err_nonretry {E V : Type} {f : Nat → Except E V}
    {sr : Option (E → Bool)} {backoff : ℚ} {n i : Nat} {d : ℚ} {e : E}
    (h : f i = .error e) (hs : srAllows sr e = false) :
    retryAux f sr backoff (n + 1) i d = (some (.error e), 1, []) := by
  conv_lhs => rw [retryAux]
  rw [h]
  simp [hs]

theorem retryAux_err_last {E V : Type} {f : Nat → Except E V}
    {sr : Option (E → Bool)} {backoff : ℚ} {i : Nat} {d : ℚ} {e : E}
    (h : f i = .error e) :
    retryAux f sr backoff 1 i d = (some (.error e), 1, []) := by
  conv_lhs => rw [retryAux]
  rw [h]
  simp

theorem retryAux_err_retry {E V : Type} {f : Nat → Except E V}
    {sr : Option (E → Bool)} {backoff : ℚ} {n i : Nat} {d : ℚ} {e : E}
    (h : f i = .error e) (hs : srAllows sr e = true) (hn : n ≠ 0) :
    retryAux f sr backoff (n + 1) i d =
      ((retryAux f sr backoff n (i + 1) (d * backoff)).1,
       (retryAux f sr backoff n (i + 1) (d * backoff)).2.1 + 1,
       d :: (retryAux f sr backoff n (i + 1) (d * backoff)).2.2) := by
  conv_lhs => rw [retryAux]
  rw [h]
  simp [hs, hn]

theorem retryAux_calls_le {E V : Type} (f : Nat → Except E V)
    (sr : Option (E → Bool)) (backoff : ℚ) :
    ∀ fuel i d, (retryAux f sr backoff fuel i d).2.1 ≤ fuel := by
  intro fuel
  induction fuel with
  | zero => intro i d; simp [retryAux]
  | succ n ih =>
    intro i d
    rcases hfi : f i with e | v
    · by_cases hs : srAllows sr e = false
      · simp [retryAux_err_nonretry hfi hs]
      · rw [Bool.not_eq_false] at hs
        rcases Nat.eq_zero_or_pos n with hn | hn
        · subst hn
          simp [retryAux_err_last hfi]
        · rw [retryAux_err_retry hfi hs (by omega)]
          have := ih (i + 1) (d * backoff)
          simpa using this
    · simp [retryAux_ok hfi]

theorem retryAux_sleeps {E V : Type} (f : Nat → Except E V)
    (sr : Option (E → Bool)) (backoff : ℚ) :
    ∀ fuel i d k, k < (retryAux f sr backoff fuel i d).2.2.length →
      (retryAux f sr backoff fuel i d).2.2[k]? = some (d * backoff ^ k) := by
  intro fuel
  induction fuel with
  | zero => intro i d k hk; simp [retryAux] at hk
  | succ n ih =>
    intro i d k hk
    rcases hfi : f i with e | v
    · by_cases hs : srAllows sr e = false
      · rw [retryAux_err_nonretry hfi hs] at hk
        simp at hk
      · rw [Bool.not_eq_false] at hs
        rcases Nat.eq_zero_or_pos n with hn | hn
        · subst hn
          rw [retryAux_err_last hfi] at hk
          simp at hk
        · rw [retryAux_err_retry hfi hs (by omega)] at hk ⊢
          rcases k with _ | m
          · simp
          · simp only [List.length_cons, Nat.add_lt_add_iff_right] at hk
            have hrec := ih (i + 1) (d * backoff) m (by simpa using hk)
            simp only [List.getElem?_cons_succ]
            rw [hrec]
            congr 1
            rw [pow_succ]
            ring
    · rw [retryAux_ok hfi] at hk
      simp at hk

theorem retryAux_nonretryable {E V : Type} (f : Nat → Except E V)
    (sr : Option (E → Bool)) (backoff : ℚ) (e : E)
    (he : srAllows sr e = false) :
    ∀ j fuel i d, j < fuel → f (i + j) = .error e →
      (∀ k, k < j → ∃ ek, f (i + k) = .error ek ∧ srAllows sr ek = true) →
      (retryAux f sr backoff fuel i d).1 = some (.error e) ∧
      (retryAux f sr backoff fuel i d).2.1 = j + 1 := by
  intro j
  induction j with
  | zero =>
    intro fuel i d hj hf _
    rcases fuel with _ | n
    · omega
    · simp only [Nat.add_zero] at hf
      rw [retryAux_err_nonretry hf he]
      exact ⟨rfl, rfl⟩
  | succ m ih =>
    intro fuel i d hj hf hall
    rcases fuel with _ | n
    · omega
    · obtain ⟨e0, hf0, hsr0⟩ := hall 0 (Nat.succ_pos m)
      simp only [Nat.add_zero] at hf0
      rw [retryAux_err_retry hf0 hsr0 (by omega)]
      have hf2 : f (i + 1 + m) = .error e := by
        have harith : i + 1 + m = i + (m + 1) := by omega
        rw [harith]
        exact hf
      have hrec := ih n (i + 1) (d * backoff) (by omega) hf2
        (fun k hk => by
          have hk2 := hall (k + 1) (by omega)
          have harith : i + (k + 1) = i + 1 + k := by omega
          rw [harith] at hk2
          exact hk2)
      exact ⟨hrec.1, by simp [hrec.2]⟩

theorem retryAux_all_fail {E V : Type} (f : Nat → Except E V)
    (sr : Option (E → Bool)) (backoff : ℚ) (elast : E) :
    ∀ fuel i d, 0 < fuel →
      (∀ k, k < fuel → ∃ ek, f (i + k) = .error ek ∧ srAllows sr ek = true) →
      f (i + (fuel - 1)) = .error elast →
      (retryAux f sr backoff fuel i d).1 = some (.error elast) ∧
      (retryAux f sr backoff fuel i d).2.1 = fuel := by
  intro fuel
  induction fuel with
  | zero => intro i d h; omega
  | succ n ih =>
    intro i d _ hall hlast
    obtain ⟨e0, hf0, hsr0⟩ := hall 0 (Nat.succ_pos n)
    simp only [Nat.add_zero] at hf0
    rcases Nat.eq_zero_or_pos n with hn | hn
    · subst hn
      have hlast2 : f i = .error elast := by simpa using hlast
      rw [retryAux_err_last hlast2]
      exact ⟨rfl, rfl⟩
    · rw [retryAux_err_retry hf0 hsr0 (by omega)]
      have hrec := ih (i + 1) (d * backoff) hn
        (fun k hk => by
          have hk2 := hall (k + 1) (by omega)
          have harith : i + (k + 1) = i + 1 + k := by omega
          rw [harith] at hk2
          exact hk2)
        (by
          have harith : i + 1 + (n - 1) = i + (n + 1 - 1) := by omega
          rw [harith]
          exact hlast)
      exact ⟨hrec.1, by simp [hrec.2]⟩

/-- C6: the retry wrapper (i) calls the wrapped function at most
`maxAttempts` times; (ii) the `k`-th recorded sleep (0-indexed, the wait
before retry attempt `k + 2`, i.e. `delay·backoff^(k'−1)` for retry attempt
`k' + 1 = k + 2`) equals `delay·backoff^k`; (iii) an error rejected by the
`should_retry` predicate is re-raised immediately with no further attempts;
and (iv) when every attempt fails with retryable errors, the final attempt's
exception is propagated. -/
theorem retry_wrapper_spec {E V : Type} (f : Nat → Except E V)
    (sr : Option (E → Bool)) (maxAttempts : Nat) (delay backoff : ℚ) :
    (retryCall f sr maxAttempts delay backoff).2.1 ≤ maxAttempts ∧
    (∀ k, k < (retryCall f sr maxAttempts delay backoff).2.2.length →
      (retryCall f sr maxAttempts delay backoff).2.2[k]? =
        some (delay * backoff ^ k)) ∧
    (∀ j e, j < maxAttempts → f j = .error e → srAllows sr e = false →
      (∀ k, k < j → ∃ ek, f k = .error ek ∧ srAllows sr ek = true) →
      (retryCall f sr maxAttempts delay backoff).1 = some (.error e) ∧
      (retryCall f sr maxAttempts delay backoff).2.1 = j + 1) ∧
    (∀ elast, 0 < maxAttempts →
      (∀ k, k < maxAttempts → ∃ ek, f k = .error ek ∧ srAllows sr ek = true) →
      f (maxAttempts - 1) = .error elast →
      (retryCall f sr maxAttempts delay backoff).1 = some (.error elast) ∧
      (retryCall f sr maxAttempts delay backoff).2.1 = maxAttempts) := by
  refine ⟨retryAux_calls_le f sr backoff maxAttempts 0 delay,
    retryAux_sleeps f sr backoff maxAttempts 0 delay, ?_, ?_⟩
  · intro j e hj hf hsr hall
    exact retryAux_nonretryable f sr backoff e hsr j maxAttempts 0 delay hj
      (by simpa using hf) (fun k hk => by simpa using hall k hk)
  · intro elast hpos hall hlast
    exact retryAux_all_fail f sr backoff elast maxAttempts 0 delay hpos
      (fun k hk => by simpa using hall k hk) (by simpa using hlast)

/-- Witness for C6: with `should_retry` rejecting `"auth invalid"`, a first
attempt failing with that error is re-raised immediately after exactly one
call, out of an allowance of 3 attempts. -/
theorem retry_wrapper_spec_witness :
    (retryCall (fun _ => (.error "auth invalid" : Except String Nat))
        (some fun e => e = "connection reset") 3 1 2).1 =
      some (.error "auth invalid") ∧
    (retryCall (fun _ => (.error "auth invalid" : Except String Nat))
        (some fun e => e = "connection reset") 3 1 2).2.1 = 1 :=
  (retry_wrapper_spec (fun _ => (.error "auth invalid" : Except String Nat))
      (some fun e => e = "connection reset") 3 1 2).2.2.1 0 "auth invalid"
    (by decide) rfl (by decide) (fun k hk => absurd hk (by omega))

/-! ## The PyInstaller builder (`src/core/builder/pyinstaller.py`)

Remote command execution is an oracle `run : String → String × String`
mapping a command to its `(stdout, stderr)` pair.  Python string operations
are re-implemented over the character data so that they evaluate in the
kernel: `pyStrip` is `str.strip()` and `hasSub` is the `in` substring test. -/

/-- Python's `str.strip()`: drop leading and trailing whitespace. -/
def pyStrip (s : String) : String :=
  ⟨((s.data.dropWhile Char.isWhitespace).reverse.dropWhile
      Char.isWhitespace).reverse⟩

/-- Python's `needle in hay` substring test. -/
def hasSub (needle : List Char) : List Char → Bool
  | [] => needle.isEmpty
  | c :: rest => needle.isPrefixOf (c :: rest) || hasSub needle rest

/-- The `pyinstaller` sub-dictionary of the task config consumed by
`_build_command` (pyinstaller.py lines 102–148); a `none`/`[]` field models a
missing (falsy) key, and the Boolean fields carry the code's defaults
(`onefile` defaults to `True`, `console` to `True`). -/
structure PyConfig where
  onefile : Bool := true
  console : Bool := true
  icon : Option String := none
  name : Option String := none
  datas : List (String × String) := []
  binaries : List (String × String) := []
  hidden_imports : List String := []
  excludes : List String := []
  runtime_hooks : List String := []
  extra_args : List String := []

/-- `PyInstallerBuilder._build_command` (pyinstaller.py lines 84–164): the
space-joined command string. -/
def build_command (task_id entry_script : String) (config : PyConfig) : String :=
  String.intercalate " " (
    ["cd /tmp/workspace_" ++ task_id, "&&", "pyinstaller"] ++
    (if config.onefile then ["--onefile"] else []) ++
    (if !config.console then ["--noconsole"] else []) ++
    (match config.icon with | some i => ["--icon", i] | none => []) ++
    (match config.name with | some n => ["--name", n] | none => []) ++
    (config.datas.flatMap fun p => ["--add-data", p.1 ++ ":" ++ p.2]) ++
    (config.binaries.flatMap fun p => ["--add-binary", p.1 ++ ":" ++ p.2]) ++
    (config.hidden_imports.flatMap fun m => ["--hidden-import", m]) ++
    (config.excludes.flatMap fun m => ["--exclude-module", m]) ++
    (config.runtime_hooks.flatMap fun h => ["--runtime-hook", h]) ++
    config.extra_args ++
    [entry_script] ++
    ["&&", "cp -r dist/* /tmp/output_" ++ task_id])

/-- `PyInstallerBuilder._check_pyinstaller` (lines 55–82): returns the error
message recorded in `task.error` when the check fails, `none` when it
passes.  `pip show pyinstaller` failing (stderr, or no `Version:` in stdout)
triggers `pip install pyinstaller`, whose stderr is a failure. -/
def check_pyinstaller (run : String → String × String) : Option String :=
  let r1 := run "pip show pyinstaller"
  if r1.2 ≠ "" ∨ hasSub "Version:".data r1.1.data = false then
    let r2 := run "pip install pyinstaller"
    if r2.2 ≠ "" then some r2.2 else none
  else none

/-- `PyInstallerBuilder._check_output` (lines 166–191): `ls -l
/tmp/output_<id>` must have empty stderr and non-blank stdout, otherwise the
error is the empty-output message. -/
def check_output (run : String → String × String) (task_id : String) :
    Option String :=
  let r := run ("ls -l /tmp/output_" ++ task_id)
  if r.2 ≠ "" ∨ pyStrip r.1 = "" then some "打包输出目录为空" else none

/-- `PyInstallerBuilder.build` (lines 15–53): returns whether the build phase
succeeded together with the recorded `task.error`. -/
def builder_build (run : String → String × String)
    (task_id entry_script : String) (config : PyConfig) :
    Bool × Option String :=
  match check_pyinstaller run with
  | some e => (false, some e)
  | none =>
    let r := run (build_command task_id entry_script config)
    if r.2 ≠ "" then (false, some r.2)
    else
      match check_output run task_id with
      | some e => (false, some e)
      | none => (true, none)

/-- C7 counterexample: the build phase can fail although the build command's
stderr is empty and the output listing is non-empty, with an error that is
neither the stderr text nor the empty-output message.  Here `pip show
pyinstaller` fails, so `_check_pyinstaller` runs `pip install pyinstaller`,
whose stderr `"boom"` fails the phase before the build command's outcome is
consulted — refuting "fails exactly when the build command produces
non-empty stderr or the remote output directory listing is empty". -/
theorem build_failure_beyond_claimed_conditions :
    builder_build
        (fun c =>
          if c = "pip show pyinstaller" then ("", "no pip")
          else if c = "pip install pyinstaller" then ("", "boom")
          else ("output-file", ""))
        "t" "main.py" {} = (false, some "boom") ∧
    ((fun (c : String) =>
          if c = "pip show pyinstaller" then ("", "no pip")
          else if c = "pip install pyinstaller" then ("", "boom")
          else ("output-file", ""))
        (build_command "t" "main.py" {})).2 = "" ∧
    check_output
        (fun c =>
          if c = "pip show pyinstaller" then ("", "no pip")
          else if c = "pip install pyinstaller" then ("", "boom")
          else ("output-file", ""))
        "t" = none := by
  decide

/-- C7 (amended): the build phase fails exactly when the PyInstaller
environment check fails, the build command produces non-empty stderr, or the
output-directory listing errors or is blank; each failure records the
corresponding message (`pip install` stderr, build stderr, or the
empty-output message), the output-check failure message is always the
empty-output text, and a failed build phase drives the runner to the terminal
`FAILED` state. -/
theorem build_phase_failure_characterisation (run : String → String × String)
    (task_id entry_script : String) (config : PyConfig) :
    (builder_build run task_id entry_script config = (true, none) ↔
      check_pyinstaller run = none ∧
      (run (build_command task_id entry_script config)).2 = "" ∧
      check_output run task_id = none) ∧
    (∀ e, check_pyinstaller run = some e →
      builder_build run task_id entry_script config = (false, some e)) ∧
    (check_pyinstaller run = none →
      (run (build_command task_id entry_script config)).2 ≠ "" →
      builder_build run task_id entry_script config =
        (false, some (run (build_command task_id entry_script config)).2)) ∧
    (∀ m, check_output run task_id = some m → m = "打包输出目录为空") ∧
    (check_pyinstaller run = none →
      (run (build_command task_id entry_script config)).2 = "" →
      ∀ m, check_output run task_id = some m →
      builder_build run task_id entry_script config = (false, some m)) ∧
    (∀ d, (runnerWrites ⟨true, true, false, d⟩).getLast? = some .failed) := by
  refine ⟨?_, ?_, ?_, ?_, ?_, ?_⟩
  · constructor
    · intro h
      unfold builder_build at h
      rcases hc : check_pyinstaller run with _ | e
      · rw [hc] at h
        simp only at h
        by_cases hr : (run (build_command task_id entry_script config)).2 = ""
        · rw [if_neg (by simpa using hr)] at h
          rcases ho : check_output run task_id with _ | m
          · exact ⟨rfl, hr, rfl⟩
          · rw [ho] at h
            simp at h
        · rw [if_pos (by simpa using hr)] at h
          simp at h
      · rw [hc] at h
        simp at h
    · rintro ⟨h1, h2, h3⟩
      unfold builder_build
      rw [h1]
      simp only
      rw [if_neg (by simpa using h2), h3]
  · intro e he
    unfold builder_build
    rw [he]
  · intro h1 h2
    unfold builder_build
    rw [h1]
    simp only
    rw [if_pos (by simpa using h2)]
  · intro m hm
    unfold check_output at hm
    by_cases hc : (run ("ls -l /tmp/output_" ++ task_id)).2 ≠ "" ∨
        pyStrip (run ("ls -l /tmp/output_" ++ task_id)).1 = ""
    · rw [if_pos hc] at hm
      exact (Option.some.injEq _ _ ▸ hm).symm
    · rw [if_neg hc] at hm
      cases hm
  · intro h1 h2 m hm
    unfold builder_build
    rw [h1]
    simp only
    rw [if_neg (by simpa using h2), hm]
  · intro d
    cases d <;> decide

/-- Witness for C7's amended theorem: a run whose build command reports
stderr `"err"` fails the phase with that stderr recorded. -/
theorem build_phase_failure_characterisation_witness :
    builder_build
        (fun c =>
          if c = "pip show pyinstaller" then ("Version: 6.0", "")
          else ("", "err"))
        "t" "m.py" {} =
      (false, some ((fun (c : String) =>
          if c = "pip show pyinstaller" then ("Version: 6.0", "")
          else ("", "err")) (build_command "t" "m.py" {})).2) :=
  (build_phase_failure_characterisation
      (fun c =>
        if c = "pip show pyinstaller" then ("Version: 6.0", "")
        else ("", "err"))
      "t" "m.py" {}).2.2.1 (by decide) (by decide)

/-! ## Task creation and cleanup (`src/core/builder/manager.py`,
`create_task` and `cleanup_task`)

For id generation only the key set of `self.tasks` matters; it is modelled as
the list of task ids in dict insertion order (`len(self.tasks)` is its
length; an assignment to an existing key leaves the list unchanged, a new key
is appended; `del` removes the key).  Server selection is abstracted by a
flag saying whether `server_manager.select_server` returned a server. -/

/-- `os.path.basename` for POSIX paths: the part after the last `/`. -/
def basename (s : String) : String :=
  ⟨(s.data.reverse.takeWhile (fun c => c ≠ '/')).reverse⟩

/-- Python dict assignment `self.tasks[task_id] = task`, restricted to the
key list. -/
def insertTaskId (tasks : List String) (id : String) : List String :=
  if id ∈ tasks then tasks else tasks ++ [id]

/-- `BuildManager.create_task` (manager.py lines 123–170), restricted to the
data relevant for id generation: the generated id is
`f"build_{platform}_{os.path.basename(entry_script)}_{len(self.tasks)}"`;
creation returns `None` for an unsupported platform or when no server is
available, and otherwise stores the task under the generated id. -/
def platformServerType (platform : String) : Option String :=
  if platform = "windows" then some "windows"
  else if platform = "macos" then some "macos"
  else if platform = "linux" then some "unix"
  else none

def create_task (tasks : List String) (platform entry_script : String)
    (serverAvailable : Bool) : Option (String × List String) :=
  match platformServerType platform with
  | none => none
  | some _ =>
    if serverAvailable then
      let task_id := "build_" ++ platform ++ "_" ++ basename entry_script ++
        "_" ++ Nat.repr tasks.length
      some (task_id, insertTaskId tasks task_id)
    else none

/-- `BuildManager.cleanup_task` (manager.py lines 365–393), restricted to the
task table: `del self.tasks[task_id]` (a no-op when the id is absent). -/
def cleanup_task (tasks : List String) (id : String) : List String :=
  tasks.erase id

/-- C8 counterexample: id generation is not collision-safe across cleanup.
Starting from an empty table: the first Create returns `build_linux_main.py_0`,
the second `build_linux_main.py_1`; after `cleanup_task` of the first id the
table has one entry again, so the third Create also returns
`build_linux_main.py_1` — two Create calls that both return an id return the
same id, refuting the distinctness part of the claim. -/
theorem create_task_id_collision :
    create_task [] "linux" "main.py" true =
      some ("build_linux_main.py_0", ["build_linux_main.py_0"]) ∧
    create_task ["build_linux_main.py_0"] "linux" "main.py" true =
      some ("build_linux_main.py_1",
        ["build_linux_main.py_0", "build_linux_main.py_1"]) ∧
    cleanup_task ["build_linux_main.py_0", "build_linux_main.py_1"]
        "build_linux_main.py_0" = ["build_linux_main.py_1"] ∧
    create_task ["build_linux_main.py_1"] "linux" "main.py" true =
      some ("build_linux_main.py_1", ["build_linux_main.py_1"]) := by
  decide

/-- C8 (amended): every id returned by Create matches the pattern
`build_<platform>_<basename(entryScript)>_<seq>` where `<seq>` is the current
size of the task table; distinctness of the ids of any two successful Create
calls does not hold once a Cleanup intervenes (witnessed by
the collision above), because the sequence number is `len(self.tasks)`. -/
theorem create_task_id_pattern (tasks : List String)
    (platform entry_script : String) (serverAvailable : Bool)
    (id : String) (tasks2 : List String)
    (h : create_task tasks platform entry_script serverAvailable =
      some (id, tasks2)) :
    id = "build_" ++ platform ++ "_" ++ basename entry_script ++ "_" ++
      Nat.repr tasks.length ∧
    tasks2 = insertTaskId tasks id := by
  unfold create_task at h
  split at h
  · cases h
  · split at h
    · simp only [Option.some.injEq, Prod.mk.injEq] at h
      refine ⟨h.1.symm, ?_⟩
      rw [← h.1]
      exact h.2.symm
    · cases h

/-- Witness for C8's amended theorem at a concrete creation. -/
theorem create_task_id_pattern_witness :
    "build_linux_main.py_0" =
      "build_" ++ "linux" ++ "_" ++ basename "main.py" ++ "_" ++
        Nat.repr ([] : List String).length ∧
    ["build_linux_main.py_0"] = insertTaskId [] "build_linux_main.py_0" :=
  create_task_id_pattern [] "linux" "main.py" true
    "build_linux_main.py_0" ["build_linux_main.py_0"] (by decide)

/-! ## The connection pool's release (`src/core/server/pool.py`)

A partition (one `server_type`) consists of `self.servers[server_type]`, the
list of `PooledServer` wrappers, and `self.pools[server_type]`, the FIFO
queue of available wrappers (represented by the underlying server's
identity).  `BaseServer` objects are identified by naturals (Python's `==`
on these objects is identity). -/

/-- A `PooledServer` wrapper (pool.py lines 13–39), restricted to the fields
`release_server` consults: the wrapped server's identity and the `in_use`
flag. -/
structure PoolEntry where
  sid : Nat
  in_use : Bool
deriving DecidableEq

/-- One pool partition: the wrapper list and the available queue (in FIFO
order, each element the `sid` of the queued wrapper). -/
structure Partition where
  entries : List PoolEntry
  avail : List Nat
deriving DecidableEq

/-- The loop of `release_server` (pool.py lines 127–131): find the first
wrapper with `pooled_server.server == server and pooled_server.in_use`, clear
its flag, and report it; `none` when no wrapper matches. -/
def releaseFirst (l : List PoolEntry) (sv : Nat) : Option (List PoolEntry) :=
  match l with
  | [] => none
  | e :: rest =>
    if e.sid = sv ∧ e.in_use = true then some ({ e with in_use := false } :: rest)
    else (releaseFirst rest sv).map (e :: ·)

/-- `ConnectionPool.release_server` (pool.py lines 122–131) on one partition:
when a matching in-use wrapper exists, clear its flag and put it back on the
same partition's queue; otherwise do nothing. -/
def release_server (p : Partition) (sv : Nat) : Partition :=
  match releaseFirst p.entries sv with
  | none => p
  | some entries2 => ⟨entries2, p.avail ++ [sv]⟩

/-- The per-kind pool map: `release_server(server_type, server)` returns
immediately when the kind has no partition and otherwise touches only that
kind's partition. -/
def poolRelease (pools : String → Option Partition) (kind : String) (sv : Nat) :
    String → Option Partition :=
  match pools kind with
  | none => pools
  | some p => fun k => if k = kind then some (release_server p sv) else pools k

theorem releaseFirst_eq_none (l : List PoolEntry) (sv : Nat)
    (h : ∀ e ∈ l, e.sid = sv → e.in_use = false) :
    releaseFirst l sv = none := by
  induction l with
  | nil => rfl
  | cons e rest ih =>
    unfold releaseFirst
    rw [if_neg, ih]
    · simp
    · exact fun e2 he2 => h e2 (List.mem_cons_of_mem e he2)
    · rintro ⟨h1, h2⟩
      rw [h e (List.mem_cons_self e rest) h1] at h2
      cases h2

theorem releaseFirst_eq_some (l : List PoolEntry) (sv : Nat)
    (l2 : List PoolEntry) (h : releaseFirst l sv = some l2) :
    ∃ l1 e l3, l = l1 ++ e :: l3 ∧ e.sid = sv ∧ e.in_use = true ∧
      l2 = l1 ++ { e with in_use := false } :: l3 ∧
      ∀ e2 ∈ l1, ¬(e2.sid = sv ∧ e2.in_use = true) := by
  induction l generalizing l2 with
  | nil => cases h
  | cons e rest ih =>
    unfold releaseFirst at h
    by_cases hc : e.sid = sv ∧ e.in_use = true
    · rw [if_pos hc] at h
      refine ⟨[], e, rest, by simp, hc.1, hc.2, ?_, by simp⟩
      have hx := Option.some.inj h
      rw [← hx]
      simp
    · rw [if_neg hc] at h
      rcases hr : releaseFirst rest sv with _ | rest2
      · rw [hr] at h
        cases h
      · rw [hr] at h
        obtain ⟨l1, e2, l3, hsplit, hsid, huse, hl2, hnone⟩ := ih rest2 hr
        refine ⟨e :: l1, e2, l3, by rw [hsplit]; simp, hsid, huse, ?_, ?_⟩
        · simp only [Option.map_some', Option.some.injEq] at h
          rw [← h, hl2]
          simp
        · intro e3 he3
          rcases List.mem_cons.mp he3 with he3 | he3
          · rw [he3]; exact hc
          · exact hnone e3 he3

/-- C9: release goes to the same partition's queue, only when the wrapper is
in use, and at most once per lease.  (i) When no wrapper of the pair is in
use, `release_server` leaves the partition unchanged.  (ii) When a matching
in-use wrapper exists, exactly the first such wrapper's flag is cleared and
the wrapper is appended to this partition's available queue.  (iii) With at
most one wrapper per server in the partition, a second release of the same
pair is a no-op on the already-released state.  (iv) At the pool level no
other partition is touched. -/
theorem release_server_spec (p : Partition) (sv : Nat) :
    ((∀ e ∈ p.entries, e.sid = sv → e.in_use = false) →
      release_server p sv = p) ∧
    (∀ l2, releaseFirst p.entries sv = some l2 →
      release_server p sv = ⟨l2, p.avail ++ [sv]⟩ ∧
      ∃ l1 e l3, p.entries = l1 ++ e :: l3 ∧ e.sid = sv ∧ e.in_use = true ∧
        l2 = l1 ++ { e with in_use := false } :: l3 ∧
        ∀ e2 ∈ l1, ¬(e2.sid = sv ∧ e2.in_use = true)) ∧
    ((p.entries.countP fun e => e.sid = sv) ≤ 1 →
      release_server (release_server p sv) sv = release_server p sv) ∧
    (∀ pools kind k, k ≠ kind →
      poolRelease pools kind sv k = pools k) := by
  refine ⟨?_, ?_, ?_, ?_⟩
  · intro h
    unfold release_server
    rw [releaseFirst_eq_none p.entries sv h]
  · intro l2 h
    constructor
    · unfold release_server
      rw [h]
    · exact releaseFirst_eq_some p.entries sv l2 h
  · intro hcount
    rcases hr : releaseFirst p.entries sv with _ | l2
    · have hnostep : release_server p sv = p := by
        unfold release_server
        rw [hr]
      rw [hnostep]
      exact hnostep
    · obtain ⟨l1, e, l3, hsplit, hsid, huse, hl2, hnone⟩ :=
        releaseFirst_eq_some p.entries sv l2 hr
      have hstep : release_server p sv = ⟨l2, p.avail ++ [sv]⟩ := by
        unfold release_server
        rw [hr]
      rw [hstep]
      have hl3 : ∀ e3 ∈ l3, e3.sid = sv → e3.in_use = false := by
        intro e3 he3 hs3
        exfalso
        have hc := hcount
        rw [hsplit] at hc
        simp [List.countP_append, List.countP_cons, hsid] at hc
        have h2 : 0 < l3.countP fun e2 => decide (e2.sid = sv) :=
          List.countP_pos_iff.mpr ⟨e3, he3, by simpa using hs3⟩
        omega
      apply (fun h => by
        unfold release_server
        rw [releaseFirst_eq_none _ _ h] :
        (∀ e2 ∈ (⟨l2, p.avail ++ [sv]⟩ : Partition).entries,
          e2.sid = sv → e2.in_use = false) → _)
      intro e2 he2 hs2
      simp only at he2
      rw [hl2] at he2
      rcases List.mem_append.mp he2 with he2 | he2
      · by_contra hu
        exact hnone e2 he2 ⟨hs2, by simpa using hu⟩
      · rcases List.mem_cons.mp he2 with he2 | he2
        · rw [he2]
        · exact hl3 e2 he2 hs2
  · intro pools kind k hk
    unfold poolRelease
    rcases pools kind with _ | part
    · rfl
    · simp [hk]

/-- Witness for C9: a partition holding one leased wrapper for server 1;
releasing it returns it to the queue, and a second release is a no-op. -/
theorem release_server_spec_witness :
    release_server ⟨[⟨1, true⟩], []⟩ 1 = ⟨[⟨1, false⟩], [1]⟩ ∧
    release_server (release_server ⟨[⟨1, true⟩], []⟩ 1) 1 =
      release_server ⟨[⟨1, true⟩], []⟩ 1 := by
  have h := release_server_spec ⟨[⟨1, true⟩], []⟩ 1
  refine ⟨?_, h.2.2.1 (by decide)⟩
  exact (h.2.1 [⟨1, false⟩] (by decide)).1

/-! ## Workspace upload (`src/core/builder/manager.py`,
`BuildManager._upload_workspace`, lines 246–309)

The walked file list is modelled per file by its size, the outcome of the
remote-hash comparison (`some true`: remote `sha256sum` equals the local
hash; `some false`: it differs; `none`: the hash check raised and the inner
`except Exception: pass` swallowed it), and whether `upload_file` succeeds.
Errors are modelled structurally: `mkdirFailed` is `创建远程工作目录失败`,
`uploadFailed p` is `上传文件失败: <p>`, and `divisionByZero` is the outer
handler's `上传工作目录失败: division by zero`.

Control flow per file: when the hash matches, the code adds the file size to
`uploaded_size` and computes `progress = uploaded_size / total_size * 100`
inside the inner `try` — with `total_size = 0` the `ZeroDivisionError` is
swallowed and control falls through to the upload step (the size having
already been counted); otherwise the file is skipped.  The upload step
aborts with `uploadFailed` when the transfer fails, then adds the size again
and recomputes progress outside any inner handler, so with `total_size = 0`
the `ZeroDivisionError` reaches the outer handler and the upload phase
returns `False`. -/

inductive UploadError
  | mkdirFailed
  | uploadFailed (path : String)
  | divisionByZero
deriving DecidableEq

structure UploadFile where
  path : String
  size : Nat
  hashMatch : Option Bool
  uploadOk : Bool
deriving DecidableEq

/-- The per-file loop of `_upload_workspace` (lines 272–302), returning the
phase error (`none` means the loop finished and the phase returns `True`) and
the successive values written to `task.progress`. -/
def uploadLoop (total : Nat) : List UploadFile → Nat → Option UploadError × List ℚ
  | [], _ => (none, [])
  | f :: fs, up =>
    if f.hashMatch = some true ∧ total ≠ 0 then
      let up1 := up + f.size
      let p := ((up1 : ℚ) / (total : ℚ)) * 100
      let r := uploadLoop total fs up1
      (r.1, p :: r.2)
    else
      let up0 := if f.hashMatch = some true then up + f.size else up
      if f.uploadOk = false then (some (.uploadFailed f.path), [])
      else
        let up2 := up0 + f.size
        if total = 0 then (some .divisionByZero, [])
        else
          let p := ((up2 : ℚ) / (total : ℚ)) * 100
          let r := uploadLoop total fs up2
          (r.1, p :: r.2)

/-- `total_size`, the sum of the walked files' sizes (lines 257–266). -/
def totalSize (files : List UploadFile) : Nat :=
  (files.map (·.size)).sum

/-- `_upload_workspace`: create the remote workspace directory, then walk and
upload. -/
def upload_workspace (mkdirOk : Bool) (files : List UploadFile) :
    Option UploadError × List ℚ :=
  if mkdirOk = false then (some .mkdirFailed, [])
  else uploadLoop (totalSize files) files 0

theorem progressBound (a b : Nat) (hb : 0 < b) (hab : a ≤ b) :
    0 ≤ ((a : ℚ) / (b : ℚ)) * 100 ∧ ((a : ℚ) / (b : ℚ)) * 100 ≤ 100 := by
  have hb2 : (0 : ℚ) < (b : ℚ) := by exact_mod_cast hb
  constructor
  · positivity
  · rw [div_mul_eq_mul_div, div_le_iff₀ hb2]
    have hab2 : (a : ℚ) ≤ (b : ℚ) := by exact_mod_cast hab
    nlinarith

theorem uploadLoop_bounds (total : Nat) (hpos : 0 < total) :
    ∀ fs up, up + totalSize fs ≤ total →
      (uploadLoop total fs up).1 ≠ some .divisionByZero ∧
      ∀ p ∈ (uploadLoop total fs up).2, 0 ≤ p ∧ p ≤ 100 := by
  intro fs
  induction fs with
  | nil =>
    intro up hb
    simp [uploadLoop]
  | cons f fs ih =>
    intro up hb
    have hb2 : up + f.size + totalSize fs ≤ total := by
      simp only [totalSize, List.map_cons, List.sum_cons] at hb
      simp only [totalSize]
      omega
    by_cases hc : f.hashMatch = some true ∧ total ≠ 0
    · unfold uploadLoop
      rw [if_pos hc]
      obtain ⟨ih1, ih2⟩ := ih (up + f.size) hb2
      refine ⟨by simpa using ih1, ?_⟩
      intro p hp
      simp only [List.mem_cons] at hp
      rcases hp with hp | hp
      · rw [hp]
        exact progressBound (up + f.size) total hpos (by omega)
      · exact ih2 p hp
    · unfold uploadLoop
      rw [if_neg hc]
      have hmatch : ¬ f.hashMatch = some true := by
        intro hm
        exact hc ⟨hm, by omega⟩
      rw [if_neg hmatch]
      by_cases hu : f.uploadOk = false
      · rw [if_pos hu]
        refine ⟨by simp, by simp⟩
      · rw [if_neg hu, if_neg (by omega : ¬ total = 0)]
        obtain ⟨ih1, ih2⟩ := ih (up + f.size) hb2
        refine ⟨by simpa using ih1, ?_⟩
        intro p hp
        simp only [List.mem_cons] at hp
        rcases hp with hp | hp
        · rw [hp]
          exact progressBound (up + f.size) total hpos (by omega)
        · exact ih2 p hp

/-- C10: a non-empty workspace whose files total zero bytes fails the upload
phase with the division-by-zero error even when every transfer succeeds
(the byte-weighted progress computation divides by the zero total size), and
a failed upload drives the runner to `FAILED`; with a positive total size the
division never fails and every recorded progress value lies in `[0, 100]`. -/
theorem upload_progress_division (files : List UploadFile) :
    (files ≠ [] → totalSize files = 0 → (∀ f ∈ files, f.uploadOk = true) →
      upload_workspace true files = (some .divisionByZero, [])) ∧
    (0 < totalSize files →
      (upload_workspace true files).1 ≠ some .divisionByZero ∧
      ∀ p ∈ (upload_workspace true files).2, 0 ≤ p ∧ p ≤ 100) ∧
    (∀ b c d, runnerWrites ⟨false, b, c, d⟩ = [.uploading, .failed]) := by
  refine ⟨?_, ?_, ?_⟩
  · intro hne h0 hok
    rcases files with _ | ⟨f, fs⟩
    · exact absurd rfl hne
    · have hok1 : f.uploadOk = true := hok f (List.mem_cons_self f fs)
      unfold upload_workspace
      rw [if_neg (by simp)]
      unfold uploadLoop
      rw [if_neg (by rw [h0]; simp), if_neg (by rw [hok1]; simp), if_pos h0]
  · intro hpos
    unfold upload_workspace
    rw [if_neg (by simp)]
    exact uploadLoop_bounds (totalSize files) hpos files 0 (by omega)
  · intro b c d
    cases b <;> cases c <;> cases d <;> decide

/-- Witness for C10: a workspace with one zero-byte file whose transfer
succeeds fails with the division error; a workspace with one 2-byte file
stays within progress bounds. -/
theorem upload_progress_division_witness :
    upload_workspace true [⟨"a.py", 0, some false, true⟩] =
      (some .divisionByZero, []) ∧
    (upload_workspace true [⟨"a.py", 2, some false, true⟩]).1 ≠
      some .divisionByZero :=
  ⟨(upload_progress_division [⟨"a.py", 0, some false, true⟩]).1
      (by decide) (by decide) (by decide),
    ((upload_progress_division [⟨"a.py", 2, some false, true⟩]).2.1
      (by decide)).1⟩

end RemoteBuilder
